import Mathlib

/-!
Shallow embedding of `src/trophicNetworkDrawer.js` (class `TrophicNetworkDrawer`).

Numbers are modelled as exact rationals (`ℚ`): the JavaScript source performs
only field arithmetic (`+`, `-`, `*`, `/`) and `Math.round`, which is modelled
exactly on `ℚ` by `fun x => ⌊x + 1/2⌋` (JavaScript `Math.round` rounds half-up,
also for negative arguments).  A JavaScript run-time `TypeError` caused by
indexing past the end of an array and dereferencing the resulting `undefined`
is modelled by an `Option`-valued outcome: `none` means the call threw.
Canvas side effects (`fillRect`, `fillText`, `beginPath`, …) are the external
renderer and are not modelled; the geometry the source computes and hands to
those calls is.
-/

namespace TrophicNetwork

/-- JavaScript `Math.round`, exactly on rationals: `Math.round(x) = ⌊x + 1/2⌋`
(half-integers round towards `+∞`, matching JavaScript). -/
def jsRound (q : ℚ) : ℤ := (q + 1 / 2).floor

theorem jsRound_eq_floor (q : ℚ) : jsRound q = ⌊q + 1 / 2⌋ := by
  rw [jsRound, Rat.floor_def' (q + 1 / 2), Rat.floor_def]

/-- The raw running sum of `arraySum` before rounding: the source initialises
`sum = 0` and does `array.forEach((value) => { sum += value; })`, a left fold. -/
def rawSum (array : List ℚ) : ℚ := array.foldl (· + ·) 0

/-- Embeds `TrophicNetworkDrawer.arraySum` (src/trophicNetworkDrawer.js:348-355):
sums the array and rounds the sum to two decimals,
`return Math.round(sum * 100) / 100;`. -/
def arraySum (array : List ℚ) : ℚ := (jsRound (rawSum array * 100) : ℚ) / 100

theorem rawSum_nil : rawSum [] = 0 := rfl

theorem foldl_add_shift (l : List ℚ) : ∀ c : ℚ, l.foldl (· + ·) c = c + l.foldl (· + ·) 0 := by
  induction l with
  | nil => intro c; simp
  | cons x xs ih =>
    intro c
    simp only [List.foldl_cons]
    rw [ih (c + x), ih (0 + x)]
    ring

theorem rawSum_cons (x : ℚ) (l : List ℚ) : rawSum (x :: l) = x + rawSum l := by
  simp only [rawSum, List.foldl_cons]
  rw [foldl_add_shift l (0 + x)]
  ring

theorem rawSum_take_succ (l : List ℚ) (i : ℕ) (h : i < l.length) :
    rawSum (l.take (i + 1)) = rawSum (l.take i) + l.get ⟨i, h⟩ := by
  induction l generalizing i with
  | nil => simp at h
  | cons x xs ih =>
    cases i with
    | zero => simp [rawSum_cons, rawSum_nil, rawSum]
    | succ j =>
      simp only [List.take_succ_cons, rawSum_cons, List.get_cons_succ]
      rw [ih j (by simpa using h)]
      ring

/-- Alert text of src/trophicNetworkDrawer.js:132. -/
def predatorsSumMsg : String := "The sum of predator populations must be equal to 1."

/-- Alert text of src/trophicNetworkDrawer.js:136. -/
def preysSumMsg : String := "The sum of preys populations must be equal to 1."

/-- Alert text of src/trophicNetworkDrawer.js:140. -/
def otherPredatorsSumMsg : String := "The sum of other predator populations must be equal to 1."

/-- Alert text of src/trophicNetworkDrawer.js:144. -/
def occupationRowsMsg : String := "The predator occupations of preys must be set for every preys."

/-- Alert text of src/trophicNetworkDrawer.js:148. -/
def otherOccupationRowsMsg : String :=
  "The other predator occupations of preys must be set for every preys."

/-- Alert text of src/trophicNetworkDrawer.js:152. -/
def occupationColsMsg : String := "The predator occupations of preys must be set for every predators."

/-- Alert text of src/trophicNetworkDrawer.js:156. -/
def otherOccupationColsMsg : String :=
  "The other predator occupations of preys must be set for every other predators."

/-- Alert text of src/trophicNetworkDrawer.js:162, with the 1-based prey index. -/
def occupationRowSumMsg (preyIndexShown : ℕ) : String :=
  "The sum of occupations of a prey by predators plus other predators must be equal to 1 (prey index " ++ toString preyIndexShown ++ ")."

/-- Outcome of a `validateMandatoryValues` call: the alert messages shown (in
order), and `result = some b` when the function returned `b`, `none` when it
threw a `TypeError` (indexing `undefined`) after showing `messages`. -/
structure ValidationResult where
  messages : List String
  result : Option Bool
deriving DecidableEq

/-- Embeds the row loop of src/trophicNetworkDrawer.js:159-165: for each row of
`occupationPreysPerPredators` (recursion argument, paired with its index),
reads `occupationPreysPerOtherPredators[preyIndex]` — a `TypeError` (`none`)
when that row does not exist — and alerts when the two row sums do not add to 1. -/
def rowSumChecks (occupationPreysPerOtherPredators : List (List ℚ)) :
    List (List ℚ) → ℕ → List String × Option Unit
  | [], _ => ([], some ())
  | occupationPreyPerPredators :: rest, preyIndex =>
    match occupationPreysPerOtherPredators.get? preyIndex with
    | none => ([], none)
    | some otherRow =>
      let m : List String :=
        if arraySum occupationPreyPerPredators + arraySum otherRow = 1 then []
        else [occupationRowSumMsg (preyIndex + 1)]
      let r := rowSumChecks occupationPreysPerOtherPredators rest (preyIndex + 1)
      (m ++ r.1, r.2)

/-- Embeds the checks of src/trophicNetworkDrawer.js:131-150 (the ones that
index no array and therefore cannot throw): the three population-sum checks and
the two row-count checks, each contributing its alert message when it fails. -/
def validateBaseMsgs (predatorsPop preysPop otherPredatorsPop : List ℚ)
    (occupationPreysPerPredators occupationPreysPerOtherPredators : List (List ℚ)) :
    List String :=
  (if arraySum predatorsPop = 1 then [] else [predatorsSumMsg]) ++
  (if arraySum preysPop = 1 then [] else [preysSumMsg]) ++
  (if 0 < otherPredatorsPop.length ∧ arraySum otherPredatorsPop ≠ 1
    then [otherPredatorsSumMsg] else []) ++
  (if occupationPreysPerPredators.length = preysPop.length then [] else [occupationRowsMsg]) ++
  (if 0 < otherPredatorsPop.length ∧
      occupationPreysPerOtherPredators.length ≠ preysPop.length
    then [otherOccupationRowsMsg] else [])

/-- Embeds src/trophicNetworkDrawer.js:151-165: the column-count checks (which
unconditionally read `occupationPreysPerPredators[0]`, and read
`occupationPreysPerOtherPredators[0]` when `otherPredatorsPop` is non-empty)
followed by the combined row-sum loop; `none` models the `TypeError` thrown on
an `undefined` access. -/
def validateTail (predatorsPop otherPredatorsPop : List ℚ)
    (occupationPreysPerPredators occupationPreysPerOtherPredators : List (List ℚ)) :
    List String × Option Unit :=
  match occupationPreysPerPredators.head? with
  | none => ([], none)
  | some firstRow =>
    let m6 : List String :=
      if firstRow.length = predatorsPop.length then [] else [occupationColsMsg]
    if 0 < otherPredatorsPop.length then
      match occupationPreysPerOtherPredators.head? with
      | none => (m6, none)
      | some otherFirstRow =>
        let m7 : List String :=
          if otherFirstRow.length = otherPredatorsPop.length then []
          else [otherOccupationColsMsg]
        let r := rowSumChecks occupationPreysPerOtherPredators occupationPreysPerPredators 0
        (m6 ++ m7 ++ r.1, r.2)
    else
      let r := rowSumChecks occupationPreysPerOtherPredators occupationPreysPerPredators 0
      (m6 ++ r.1, r.2)

/-- Embeds `TrophicNetworkDrawer.validateMandatoryValues`
(src/trophicNetworkDrawer.js:127-168).  The returned boolean is `true` exactly
when no alert was shown (the source keeps a `paramsAreValid` flag that every
failing check clears, with no early return); `result = none` models the
function throwing a `TypeError` part-way, after the accumulated `messages`
were already shown. -/
def validateMandatoryValues (predatorsPop preysPop otherPredatorsPop : List ℚ)
    (occupationPreysPerPredators occupationPreysPerOtherPredators : List (List ℚ)) :
    ValidationResult :=
  let base := validateBaseMsgs predatorsPop preysPop otherPredatorsPop
    occupationPreysPerPredators occupationPreysPerOtherPredators
  let t := validateTail predatorsPop otherPredatorsPop
    occupationPreysPerPredators occupationPreysPerOtherPredators
  ⟨base ++ t.1, t.2.map fun _ => (base ++ t.1).isEmpty⟩

/-- The drawing options of the `TrophicNetworkDrawer` constructor
(src/trophicNetworkDrawer.js:24-38).  Colors are `(mainColor, textColor)`
string pairs, labels are `none` for the JavaScript `null` default. -/
structure Options where
  separatorWidth : ℚ
  rectangleHeight : ℚ
  predatorsPosY : ℚ
  preysPosY : ℚ
  otherPredatorsPosY : ℚ
  canvasWidth : ℚ
  predatorsColors : List (String × String)
  preysColors : List (String × String)
  otherPredatorsColors : List (String × String)
  predatorsLabels : Option (List String)
  preysLabels : Option (List String)
  otherPredatorsLabels : Option (List String)
  font : String
deriving DecidableEq

/-- The default options set by the constructor (src/trophicNetworkDrawer.js:24-38). -/
def defaultOptions : Options where
  separatorWidth := 5
  rectangleHeight := 30
  predatorsPosY := 0
  preysPosY := 150
  otherPredatorsPosY := 300
  canvasWidth := 500
  predatorsColors := [("rgba(200,0,0,0.5)", "black"), ("rgba(0,200,0,0.5)", "black"),
    ("rgba(0,0,200,0.5)", "black")]
  preysColors := [("black", "white")]
  otherPredatorsColors := [("rgba(126,33,150,0.5)", "black"), ("rgba(255,85,0,0.5)", "black"),
    ("rgba(255,3,199,0.5)", "black"), ("rgba(107,28,0,0.5)", "black")]
  predatorsLabels := none
  preysLabels := none
  otherPredatorsLabels := none
  font := "15px Arial"

/-- The caller's `options` argument of `drawTrophicNetwork`: a partial record
merged over the stored options by `Object.assign(this.options, options)`
(src/trophicNetworkDrawer.js:110); `none` means the key is absent. -/
structure OptionsPatch where
  separatorWidth : Option ℚ := none
  rectangleHeight : Option ℚ := none
  predatorsPosY : Option ℚ := none
  preysPosY : Option ℚ := none
  otherPredatorsPosY : Option ℚ := none
  canvasWidth : Option ℚ := none
  predatorsColors : Option (List (String × String)) := none
  preysColors : Option (List (String × String)) := none
  otherPredatorsColors : Option (List (String × String)) := none
  predatorsLabels : Option (Option (List String)) := none
  preysLabels : Option (Option (List String)) := none
  otherPredatorsLabels : Option (Option (List String)) := none
  font : Option String := none

/-- `Object.assign(this.options, options)`: every key present in the patch
overwrites the stored value (src/trophicNetworkDrawer.js:110). -/
def mergeOptions (opts : Options) (p : OptionsPatch) : Options where
  separatorWidth := p.separatorWidth.getD opts.separatorWidth
  rectangleHeight := p.rectangleHeight.getD opts.rectangleHeight
  predatorsPosY := p.predatorsPosY.getD opts.predatorsPosY
  preysPosY := p.preysPosY.getD opts.preysPosY
  otherPredatorsPosY := p.otherPredatorsPosY.getD opts.otherPredatorsPosY
  canvasWidth := p.canvasWidth.getD opts.canvasWidth
  predatorsColors := p.predatorsColors.getD opts.predatorsColors
  preysColors := p.preysColors.getD opts.preysColors
  otherPredatorsColors := p.otherPredatorsColors.getD opts.otherPredatorsColors
  predatorsLabels := p.predatorsLabels.getD opts.predatorsLabels
  preysLabels := p.preysLabels.getD opts.preysLabels
  otherPredatorsLabels := p.otherPredatorsLabels.getD opts.otherPredatorsLabels
  font := p.font.getD opts.font

/-- The record pushed for a prey by `drawSpecyRectangles` when
`returnTriangleOriginCoords` is false (src/trophicNetworkDrawer.js:262-266). -/
structure PreyCoords where
  topLeftPoint : ℚ × ℚ
  bottomLeftPoint : ℚ × ℚ
  width : ℚ
deriving DecidableEq

/-- One element of the array returned by `drawSpecyRectangles`: a triangle
origin point (src/trophicNetworkDrawer.js:260) or a prey coordinate record
(src/trophicNetworkDrawer.js:262-266), depending on the
`returnTriangleOriginCoords` flag. -/
inductive SpecyCoord where
  | origin (point : ℚ × ℚ)
  | rect (coords : PreyCoords)
deriving DecidableEq

/-- The loop of `drawSpecyRectangles` (src/trophicNetworkDrawer.js:227-268),
threading `previousCumulatedPopPercent` through the `forEach`.  The canvas
`fillRect`/`fillText` calls drawn from the same coordinates are the external
renderer; the returned coordinates are modelled.  An `undefined` in a
too-short custom label array would only affect that rendering, not the
returned coordinates. -/
def drawSpecyRectanglesGo (opts : Options) (specyPosY : ℚ)
    (returnTriangleOriginCoords triangleOriginIsOnBottom : Bool) :
    List ℚ → ℚ → List SpecyCoord
  | [], _ => []
  | specyPopPercent :: rest, previousCumulatedPopPercent =>
    let leftPos := previousCumulatedPopPercent * opts.canvasWidth + opts.separatorWidth
    let width := specyPopPercent * opts.canvasWidth - opts.separatorWidth
    let coord :=
      if returnTriangleOriginCoords then
        let triangleOriginY :=
          if triangleOriginIsOnBottom then specyPosY + opts.rectangleHeight else specyPosY
        SpecyCoord.origin (leftPos + width / 2, triangleOriginY)
      else
        SpecyCoord.rect ⟨(leftPos, specyPosY), (leftPos, specyPosY + opts.rectangleHeight), width⟩
    coord :: drawSpecyRectanglesGo opts specyPosY returnTriangleOriginCoords
        triangleOriginIsOnBottom rest (previousCumulatedPopPercent + specyPopPercent)

/-- Embeds `TrophicNetworkDrawer.drawSpecyRectangles`
(src/trophicNetworkDrawer.js:222-271): `previousCumulatedPopPercent` starts
at 0.  The `specyColors`, `labels` and `startIndex` parameters feed only the
external canvas `fillRect`/`fillText` calls and do not influence the returned
coordinates, so they are not parameters of the embedding. -/
def drawSpecyRectangles (opts : Options) (specyPopArray : List ℚ) (specyPosY : ℚ)
    (returnTriangleOriginCoords triangleOriginIsOnBottom : Bool) : List SpecyCoord :=
  drawSpecyRectanglesGo opts specyPosY returnTriangleOriginCoords triangleOriginIsOnBottom
    specyPopArray 0

/-- Embeds `TrophicNetworkDrawer.getColorFromArray`
(src/trophicNetworkDrawer.js:317-320): `colors[index % colors.length][i]`.
On an empty array, JavaScript computes `index % 0 = NaN`, `colors[NaN]` is
`undefined` and dereferencing it throws a `TypeError`, modelled by `none`;
there is no fallback color in the source. -/
def getColorFromArray (colors : List (String × String)) (index : ℕ) (forText : Bool) :
    Option String :=
  match colors.get? (index % colors.length) with
  | none => none
  | some pair => some (if forText then pair.2 else pair.1)

/-- A triangle handed to `drawTriangle` (src/trophicNetworkDrawer.js:301):
`vertexA`/`vertexB` are the two prey-edge vertices, `vertexC` the predator's
triangle origin, `fillStyle` the resolved predator color. -/
structure Triangle where
  vertexA : ℚ × ℚ
  vertexB : ℚ × ℚ
  vertexC : ℚ × ℚ
  fillStyle : String
deriving DecidableEq

/-- Embeds the inner `forEach` of `drawPredatorsToPreysTriangles`
(src/trophicNetworkDrawer.js:289-305): one iteration per occupation cell of
the prey's row, threading `leftTriangleOffsetX` and the predator index.
`none` outcomes model the `TypeError` thrown when `currentPreyCoords` is
`undefined` (reading `.topLeftPoint`/`.bottomLeftPoint`), when the color
array is empty (`getColorFromArray` dereferences `undefined`), or when the
predator origin is `undefined` (`drawTriangle` reads `vertexC[0]`); triangles
already drawn before the throw are kept. -/
def drawPreyRowTriangles (predatorsColors : List (String × String))
    (predatorsTriangleOrigins : List (ℚ × ℚ)) (currentPreyCoords : Option PreyCoords)
    (toPreyRectangleBottom : Bool) :
    List ℚ → ℚ → ℕ → List Triangle × Option Unit
  | [], _, _ => ([], some ())
  | currentOccupationPercent :: rest, leftTriangleOffsetX, predatorIndex =>
    match currentPreyCoords with
    | none => ([], none)
    | some pc =>
      let leftPreyVertex := if toPreyRectangleBottom then pc.bottomLeftPoint else pc.topLeftPoint
      let leftTriangleVertex : ℚ × ℚ := (leftPreyVertex.1 + leftTriangleOffsetX, leftPreyVertex.2)
      let rightTriangleVertex : ℚ × ℚ :=
        (leftTriangleVertex.1 + pc.width * currentOccupationPercent, leftTriangleVertex.2)
      match getColorFromArray predatorsColors predatorIndex false,
          predatorsTriangleOrigins.get? predatorIndex with
      | some fillStyle, some currentPredatorTriangleOrigin =>
        let r := drawPreyRowTriangles predatorsColors predatorsTriangleOrigins (some pc)
          toPreyRectangleBottom rest
          (leftTriangleOffsetX + (rightTriangleVertex.1 - leftTriangleVertex.1))
          (predatorIndex + 1)
        (⟨leftTriangleVertex, rightTriangleVertex, currentPredatorTriangleOrigin, fillStyle⟩ :: r.1,
          r.2)
      | _, _ => ([], none)

/-- Embeds the outer `forEach` of `drawPredatorsToPreysTriangles`
(src/trophicNetworkDrawer.js:284-306): one iteration per prey row, each
restarting `leftTriangleOffsetX` at 0 and the predator index at 0, and
fetching `this.preysCoords[preyIndex]`. -/
def drawPredatorsToPreysTrianglesGo (predatorsColors : List (String × String))
    (predatorsTriangleOrigins : List (ℚ × ℚ)) (preysCoords : List PreyCoords)
    (toPreyRectangleBottom : Bool) :
    List (List ℚ) → ℕ → List Triangle × Option Unit
  | [], _ => ([], some ())
  | occupationPredatorForCurrentPrey :: rest, preyIndex =>
    let r := drawPreyRowTriangles predatorsColors predatorsTriangleOrigins
      (preysCoords.get? preyIndex) toPreyRectangleBottom occupationPredatorForCurrentPrey 0 0
    match r.2 with
    | none => (r.1, none)
    | some _ =>
      let rr := drawPredatorsToPreysTrianglesGo predatorsColors predatorsTriangleOrigins
        preysCoords toPreyRectangleBottom rest (preyIndex + 1)
      (r.1 ++ rr.1, rr.2)

/-- Embeds `TrophicNetworkDrawer.drawPredatorsToPreysTriangles`
(src/trophicNetworkDrawer.js:282-307).  Returns the triangles handed to
`drawTriangle`, in emission order, and whether the call completed
(`some ()`) or threw (`none`). -/
def drawPredatorsToPreysTriangles (occupationPreysPerPredatorsMatrix : List (List ℚ))
    (predatorsTriangleOrigins : List (ℚ × ℚ)) (predatorsColors : List (String × String))
    (toPreyRectangleBottom : Bool) (preysCoords : List PreyCoords) :
    List Triangle × Option Unit :=
  drawPredatorsToPreysTrianglesGo predatorsColors predatorsTriangleOrigins preysCoords
    toPreyRectangleBottom occupationPreysPerPredatorsMatrix 0

/-- The mutable fields of a `TrophicNetworkDrawer` instance
(src/trophicNetworkDrawer.js:11-38), minus the canvas handles, which are
external I/O. -/
structure DrawerState where
  predatorsPop : List ℚ
  preysPop : List ℚ
  otherPredatorsPop : List ℚ
  occupationPreysPerPredators : List (List ℚ)
  occupationPreysPerOtherPredators : List (List ℚ)
  predatorsTriangleOrigin : List SpecyCoord
  otherPredatorsTriangleOrigin : List SpecyCoord
  preysCoords : List SpecyCoord
  options : Options

/-- The fresh instance built by the constructor (src/trophicNetworkDrawer.js:11-38). -/
def initialDrawerState : DrawerState where
  predatorsPop := []
  preysPop := []
  otherPredatorsPop := []
  occupationPreysPerPredators := []
  occupationPreysPerOtherPredators := []
  predatorsTriangleOrigin := []
  otherPredatorsTriangleOrigin := []
  preysCoords := []
  options := defaultOptions

/-- The origin points among a `drawSpecyRectangles` result (every element, when
the call was made with `returnTriangleOriginCoords = true`). -/
def specyOriginsOf (l : List SpecyCoord) : List (ℚ × ℚ) :=
  l.filterMap fun c => match c with
    | .origin p => some p
    | .rect _ => none

/-- The prey coordinate records among a `drawSpecyRectangles` result (every
element, when the call was made with `returnTriangleOriginCoords = false`). -/
def specyRectsOf (l : List SpecyCoord) : List PreyCoords :=
  l.filterMap fun c => match c with
    | .origin _ => none
    | .rect pc => some pc

/-- The geometry `draw` computes and hands to the canvas in one pass. -/
structure Scene where
  predatorsTriangleOrigin : List SpecyCoord
  preysCoords : List SpecyCoord
  otherPredatorsTriangleOrigin : List SpecyCoord
  predatorTriangles : List Triangle × Option Unit
  otherPredatorTriangles : List Triangle × Option Unit

/-- Embeds `TrophicNetworkDrawer.draw` (src/trophicNetworkDrawer.js:175-207):
computes and stores the three coordinate arrays, then draws the two triangle
families.  Canvas sizing and the label start indexes feed only the external
renderer. -/
def draw (s : DrawerState) : DrawerState × Scene :=
  let predatorsTriangleOrigin :=
    drawSpecyRectangles s.options s.predatorsPop s.options.predatorsPosY true true
  let preysCoords := drawSpecyRectangles s.options s.preysPop s.options.preysPosY false false
  let otherPredatorsTriangleOrigin :=
    drawSpecyRectangles s.options s.otherPredatorsPop s.options.otherPredatorsPosY true false
  let predatorTriangles := drawPredatorsToPreysTriangles s.occupationPreysPerPredators
    (specyOriginsOf predatorsTriangleOrigin) s.options.predatorsColors false
    (specyRectsOf preysCoords)
  let otherPredatorTriangles := drawPredatorsToPreysTriangles s.occupationPreysPerOtherPredators
    (specyOriginsOf otherPredatorsTriangleOrigin) s.options.otherPredatorsColors true
    (specyRectsOf preysCoords)
  ({ s with predatorsTriangleOrigin, preysCoords, otherPredatorsTriangleOrigin },
    ⟨predatorsTriangleOrigin, preysCoords, otherPredatorsTriangleOrigin,
      predatorTriangles, otherPredatorTriangles⟩)

/-- Embeds `TrophicNetworkDrawer.drawTrophicNetwork`
(src/trophicNetworkDrawer.js:94-114): validates first and returns untouched
(`none` scene) unless validation returned `true`; only then stores the
inputs, merges the options and draws.  A validation `TypeError`
(`result = none`) propagates before any assignment, so the state is also
untouched in that case. -/
def drawTrophicNetwork (s : DrawerState) (predatorsPop preysPop otherPredatorsPop : List ℚ)
    (occupationPreysPerPredators occupationPreysPerOtherPredators : List (List ℚ))
    (options : OptionsPatch) : DrawerState × Option Scene :=
  match (validateMandatoryValues predatorsPop preysPop otherPredatorsPop
      occupationPreysPerPredators occupationPreysPerOtherPredators).result with
  | some true =>
    let s1 := { s with
                predatorsPop := predatorsPop, preysPop := preysPop,
                otherPredatorsPop := otherPredatorsPop,
                occupationPreysPerPredators := occupationPreysPerPredators,
                occupationPreysPerOtherPredators := occupationPreysPerOtherPredators }
    let s2 := { s1 with options := mergeOptions s1.options options }
    let r := draw s2
    (r.1, some r.2)
  | _ => (s, none)

/-! ### Derived closed forms and accessors used to state the properties -/

/-- The color `getColorFromArray` picks when the array is non-empty. -/
def colorAt (colors : List (String × String)) (index : ℕ) (forText : Bool) : String :=
  if forText then (colors.getD (index % colors.length) ("", "")).2
  else (colors.getD (index % colors.length) ("", "")).1

/-- Closed form of the triangles the inner flow loop emits for one prey row,
starting from offset `startOffsetX` and predator index `startPredatorIndex`:
the `j`-th triangle sits at the running offset `pc.width *` (sum of the first
`j` occupation values) and spans `pc.width *` (the `j`-th occupation value). -/
def expectedRowFlowTriangles (predatorsColors : List (String × String))
    (predatorsTriangleOrigins : List (ℚ × ℚ)) (pc : PreyCoords) (toPreyRectangleBottom : Bool)
    (row : List ℚ) (startOffsetX : ℚ) (startPredatorIndex : ℕ) : List Triangle :=
  (List.range row.length).map fun j =>
    let leftPreyVertex := if toPreyRectangleBottom then pc.bottomLeftPoint else pc.topLeftPoint
    let ax := leftPreyVertex.1 + (startOffsetX + pc.width * rawSum (row.take j))
    ⟨(ax, leftPreyVertex.2), (ax + pc.width * row.getD j 0, leftPreyVertex.2),
      predatorsTriangleOrigins.getD (startPredatorIndex + j) (0, 0),
      colorAt predatorsColors (startPredatorIndex + j) false⟩

/-- Closed form of the whole flow computation: the rows' triangle lists in
prey-row order, each row in predator-column order (row-major). -/
def expectedFlowTrianglesGo (predatorsColors : List (String × String))
    (predatorsTriangleOrigins : List (ℚ × ℚ)) (preysCoords : List PreyCoords)
    (toPreyRectangleBottom : Bool) : List (List ℚ) → ℕ → List Triangle
  | [], _ => []
  | row :: rest, preyIndex =>
    expectedRowFlowTriangles predatorsColors predatorsTriangleOrigins
        (preysCoords.getD preyIndex ⟨(0, 0), (0, 0), 0⟩) toPreyRectangleBottom row 0 0 ++
      expectedFlowTrianglesGo predatorsColors predatorsTriangleOrigins preysCoords
        toPreyRectangleBottom rest (preyIndex + 1)

/-- The horizontal extent a flow triangle covers on the prey edge. -/
def triangleWidth (t : Triangle) : ℚ := t.vertexB.1 - t.vertexA.1

/-- Total prey-edge width covered by a list of flow triangles. -/
def sumTriangleWidths (l : List Triangle) : ℚ := (l.map triangleWidth).sum

/-- Left edge of a rectangle-mode `drawSpecyRectangles` entry. -/
def coordLeftX : SpecyCoord → ℚ
  | .origin p => p.1
  | .rect pc => pc.topLeftPoint.1

/-- Right edge (left + width) of a rectangle-mode `drawSpecyRectangles` entry. -/
def coordRightX : SpecyCoord → ℚ
  | .origin p => p.1
  | .rect pc => pc.topLeftPoint.1 + pc.width

/-! ### Basic lemmas -/

theorem rawSum_eq_sum (l : List ℚ) : rawSum l = l.sum := by
  induction l with
  | nil => rfl
  | cons x xs ih => rw [rawSum_cons, ih, List.sum_cons]

theorem arraySum_eq_one_iff (a : List ℚ) :
    arraySum a = 1 ↔ jsRound (rawSum a * 100) = 100 := by
  unfold arraySum
  rw [div_eq_one_iff_eq (by norm_num)]
  exact_mod_cast Int.cast_injective.eq_iff

theorem arraySum_eq_one_of_close (a : List ℚ) (h : |rawSum a - 1| < 1 / 200) :
    arraySum a = 1 := by
  rw [arraySum_eq_one_iff, jsRound_eq_floor]
  rw [abs_sub_lt_iff] at h
  rw [Int.floor_eq_iff]
  constructor
  · push_cast
    nlinarith [h.1, h.2]
  · push_cast
    nlinarith [h.1, h.2]

theorem close_of_arraySum_eq_one (a : List ℚ) (h : arraySum a = 1) :
    |rawSum a - 1| ≤ 1 / 200 := by
  rw [arraySum_eq_one_iff, jsRound_eq_floor, Int.floor_eq_iff] at h
  rw [abs_sub_le_iff]
  obtain ⟨h1, h2⟩ := h
  push_cast at h1 h2
  constructor <;> nlinarith

theorem getColorFromArray_eq (colors : List (String × String)) (index : ℕ) (forText : Bool)
    (h : colors ≠ []) :
    getColorFromArray colors index forText = some (colorAt colors index forText) := by
  have hlen : 0 < colors.length := List.length_pos.2 h
  have hm : index % colors.length < colors.length := Nat.mod_lt _ hlen
  rw [getColorFromArray, List.get?_eq_get hm]
  simp [colorAt, List.getD_eq_getElem?_getD, List.getElem?_eq_getElem hm]

theorem rawSum_take_mono (l : List ℚ) (h : ∀ p ∈ l, 0 ≤ p) {m n : ℕ} (hmn : m ≤ n) :
    rawSum (l.take m) ≤ rawSum (l.take n) := by
  rw [rawSum_eq_sum, rawSum_eq_sum]
  rw [show n = m + (n - m) from (Nat.add_sub_cancel' hmn).symm, List.take_add, List.sum_append]
  have hnn : 0 ≤ ((l.drop m).take (n - m)).sum := by
    refine List.sum_nonneg fun x hx => h x ?_
    exact List.drop_subset m l (List.take_subset _ _ hx)
  linarith

theorem drawSpecyRectanglesGo_get? (opts : Options) (y : ℚ) (fo fb : Bool) :
    ∀ (l : List ℚ) (c : ℚ) (i : ℕ),
    (drawSpecyRectanglesGo opts y fo fb l c).get? i = (l.get? i).map (fun p =>
      let leftPos := (c + rawSum (l.take i)) * opts.canvasWidth + opts.separatorWidth
      let width := p * opts.canvasWidth - opts.separatorWidth
      if fo then
        SpecyCoord.origin (leftPos + width / 2, if fb then y + opts.rectangleHeight else y)
      else SpecyCoord.rect ⟨(leftPos, y), (leftPos, y + opts.rectangleHeight), width⟩) := by
  intro l
  induction l with
  | nil => intro c i; simp [drawSpecyRectanglesGo]
  | cons p rest ih =>
    intro c i
    cases i with
    | zero =>
      simp [drawSpecyRectanglesGo, rawSum_nil]
    | succ j =>
      have hsum : c + rawSum ((p :: rest).take (j + 1)) = (c + p) + rawSum (rest.take j) := by
        rw [List.take_succ_cons, rawSum_cons]; ring
      simp only [drawSpecyRectanglesGo, List.get?_cons_succ]
      rw [ih (c + p) j, hsum]

theorem expectedRowFlowTriangles_nil (colors : List (String × String))
    (origins : List (ℚ × ℚ)) (pc : PreyCoords) (b : Bool) (off : ℚ) (k : ℕ) :
    expectedRowFlowTriangles colors origins pc b [] off k = [] := by
  simp [expectedRowFlowTriangles]

theorem expectedRowFlowTriangles_cons (colors : List (String × String))
    (origins : List (ℚ × ℚ)) (pc : PreyCoords) (b : Bool) (p : ℚ) (rest : List ℚ)
    (off : ℚ) (k : ℕ) :
    expectedRowFlowTriangles colors origins pc b (p :: rest) off k
      = ⟨((if b then pc.bottomLeftPoint else pc.topLeftPoint).1 + off,
            (if b then pc.bottomLeftPoint else pc.topLeftPoint).2),
          ((if b then pc.bottomLeftPoint else pc.topLeftPoint).1 + off + pc.width * p,
            (if b then pc.bottomLeftPoint else pc.topLeftPoint).2),
          origins.getD k (0, 0), colorAt colors k false⟩
        :: expectedRowFlowTriangles colors origins pc b rest (off + pc.width * p) (k + 1) := by
  unfold expectedRowFlowTriangles
  rw [List.length_cons, List.range_succ_eq_map, List.map_cons, List.map_map]
  congr 1
  · simp only [List.take_zero, rawSum_nil, List.getD_cons_zero, Nat.add_zero]
    congr 2 <;> ring
  · apply List.map_congr_left
    intro j _
    simp only [Function.comp_apply, List.take_succ_cons, rawSum_cons, List.getD_cons_succ]
    have hidx : k + (j + 1) = k + 1 + j := by omega
    rw [hidx]
    congr 2 <;> ring

theorem drawPreyRowTriangles_eq (colors : List (String × String)) (origins : List (ℚ × ℚ))
    (pc : PreyCoords) (b : Bool) (hc : colors ≠ []) :
    ∀ (row : List ℚ) (off : ℚ) (k : ℕ), (∀ j, j < row.length → k + j < origins.length) →
    drawPreyRowTriangles colors origins (some pc) b row off k
      = (expectedRowFlowTriangles colors origins pc b row off k, some ()) := by
  intro row
  induction row with
  | nil =>
    intro off k _
    simp [drawPreyRowTriangles, expectedRowFlowTriangles_nil]
  | cons p rest ih =>
    intro off k ho
    have hk : k < origins.length := by simpa using ho 0 (by simp)
    have hoget : origins.get? k = some (origins.getD k (0, 0)) := by
      rw [List.get?_eq_get hk]
      simp [List.getD_eq_getElem?_getD, List.getElem?_eq_getElem hk]
    rw [drawPreyRowTriangles, getColorFromArray_eq colors k false hc, hoget]
    rw [ih (off + ((if b then pc.bottomLeftPoint else pc.topLeftPoint).1 + off + pc.width * p -
          ((if b then pc.bottomLeftPoint else pc.topLeftPoint).1 + off))) (k + 1)
        (fun j hj => by have := ho (j + 1) (by simpa using hj); omega)]
    rw [expectedRowFlowTriangles_cons]
    ring_nf

theorem expectedRowFlowTriangles_length (colors : List (String × String))
    (origins : List (ℚ × ℚ)) (pc : PreyCoords) (b : Bool) (row : List ℚ) (off : ℚ) (k : ℕ) :
    (expectedRowFlowTriangles colors origins pc b row off k).length = row.length := by
  simp [expectedRowFlowTriangles]

theorem expectedRowFlowTriangles_get? (colors : List (String × String))
    (origins : List (ℚ × ℚ)) (pc : PreyCoords) (b : Bool) (row : List ℚ) (off : ℚ) (k : ℕ)
    (j : ℕ) (hj : j < row.length) :
    (expectedRowFlowTriangles colors origins pc b row off k).get? j
      = some ⟨((if b then pc.bottomLeftPoint else pc.topLeftPoint).1
                  + (off + pc.width * rawSum (row.take j)),
                (if b then pc.bottomLeftPoint else pc.topLeftPoint).2),
              ((if b then pc.bottomLeftPoint else pc.topLeftPoint).1
                  + (off + pc.width * rawSum (row.take j)) + pc.width * row.getD j 0,
                (if b then pc.bottomLeftPoint else pc.topLeftPoint).2),
              origins.getD (k + j) (0, 0), colorAt colors (k + j) false⟩ := by
  unfold expectedRowFlowTriangles
  rw [List.get?_map, List.get?_range hj]
  rfl

theorem sumTriangleWidths_nil : sumTriangleWidths [] = 0 := rfl

theorem sumTriangleWidths_cons (t : Triangle) (l : List Triangle) :
    sumTriangleWidths (t :: l) = triangleWidth t + sumTriangleWidths l := by
  simp [sumTriangleWidths]

theorem expectedRowFlowTriangles_sumWidths (colors : List (String × String))
    (origins : List (ℚ × ℚ)) (pc : PreyCoords) (b : Bool) :
    ∀ (row : List ℚ) (off : ℚ) (k : ℕ),
    sumTriangleWidths (expectedRowFlowTriangles colors origins pc b row off k)
      = pc.width * rawSum row := by
  intro row
  induction row with
  | nil =>
    intro off k
    rw [expectedRowFlowTriangles_nil, sumTriangleWidths_nil, rawSum_nil, mul_zero]
  | cons p rest ih =>
    intro off k
    rw [expectedRowFlowTriangles_cons, sumTriangleWidths_cons, ih, rawSum_cons]
    unfold triangleWidth
    ring

/-- One-step unfolding of the outer flow loop on a non-empty matrix. -/
theorem drawPredatorsToPreysTrianglesGo_eq (colors : List (String × String))
    (origins : List (ℚ × ℚ)) (preysCoords : List PreyCoords) (b : Bool) (hc : colors ≠ []) :
    ∀ (matrix : List (List ℚ)) (k : ℕ),
    (∀ i, i < matrix.length → (matrix.getD i []).length ≤ origins.length) →
    k + matrix.length ≤ preysCoords.length →
    drawPredatorsToPreysTrianglesGo colors origins preysCoords b matrix k
      = (expectedFlowTrianglesGo colors origins preysCoords b matrix k, some ()) := by
  intro matrix
  induction matrix with
  | nil =>
    intro k _ _
    simp [drawPredatorsToPreysTrianglesGo, expectedFlowTrianglesGo]
  | cons row rest ih =>
    intro k ho hp
    have hk : k < preysCoords.length := by
      have := hp; simp only [List.length_cons] at this; omega
    have hpcget : preysCoords.get? k = some (preysCoords.getD k ⟨(0, 0), (0, 0), 0⟩) := by
      rw [List.get?_eq_get hk]
      simp [List.getD_eq_getElem?_getD, List.getElem?_eq_getElem hk]
    rw [drawPredatorsToPreysTrianglesGo, hpcget]
    rw [drawPreyRowTriangles_eq colors origins _ b hc row 0 0
        (fun j hj => by
          have := ho 0 (by simp)
          simp only [List.getD_cons_zero] at this
          omega)]
    rw [ih (k + 1)
        (fun i hi => by
          have := ho (i + 1) (by simpa using hi)
          simpa using this)
        (by simp only [List.length_cons] at hp; omega)]
    rfl

theorem expectedFlowTrianglesGo_length (colors : List (String × String))
    (origins : List (ℚ × ℚ)) (preysCoords : List PreyCoords) (b : Bool) :
    ∀ (matrix : List (List ℚ)) (k : ℕ),
    (expectedFlowTrianglesGo colors origins preysCoords b matrix k).length
      = (matrix.map List.length).sum := by
  intro matrix
  induction matrix with
  | nil => intro k; simp [expectedFlowTrianglesGo]
  | cons row rest ih =>
    intro k
    simp [expectedFlowTrianglesGo, expectedRowFlowTriangles_length, ih]

theorem getD_eq_get (l : List ℚ) (j : ℕ) (h : j < l.length) : l.getD j 0 = l.get ⟨j, h⟩ := by
  simp [List.getD_eq_getElem?_getD, List.getElem?_eq_getElem h]

/-! ### Claims -/

/-- C1: for a prey row whose occupation fractions sum to 1, the emitted flow
polygons tile the prey rectangle's width exactly: polygon `j` has width
`pc.width * row[j]`, starts at the running offset `pc.width *` (sum of the
first `j` fractions) from the prey's left edge, consecutive polygons share an
edge (no gap or overlap), and the widths sum to the full `pc.width`; when the
row sum is only valid up to the validator's two-decimal rounding, the tiling
holds up to `|pc.width| / 200`. -/
theorem flow_row_tiles_prey_width (colors : List (String × String)) (origins : List (ℚ × ℚ))
    (pc : PreyCoords) (b : Bool) (row : List ℚ)
    (hc : colors ≠ []) (ho : row.length ≤ origins.length) :
    (drawPreyRowTriangles colors origins (some pc) b row 0 0).2 = some () ∧
    (drawPreyRowTriangles colors origins (some pc) b row 0 0).1.length = row.length ∧
    (∀ j t, (drawPreyRowTriangles colors origins (some pc) b row 0 0).1.get? j = some t →
      t.vertexA.1 = (if b then pc.bottomLeftPoint else pc.topLeftPoint).1
          + pc.width * rawSum (row.take j)
        ∧ triangleWidth t = pc.width * row.getD j 0) ∧
    (∀ j t t', (drawPreyRowTriangles colors origins (some pc) b row 0 0).1.get? j = some t →
      (drawPreyRowTriangles colors origins (some pc) b row 0 0).1.get? (j + 1) = some t' →
      t.vertexB.1 = t'.vertexA.1) ∧
    sumTriangleWidths (drawPreyRowTriangles colors origins (some pc) b row 0 0).1
      = pc.width * rawSum row ∧
    (rawSum row = 1 →
      sumTriangleWidths (drawPreyRowTriangles colors origins (some pc) b row 0 0).1 = pc.width) ∧
    (arraySum row = 1 →
      |sumTriangleWidths (drawPreyRowTriangles colors origins (some pc) b row 0 0).1 - pc.width|
        ≤ |pc.width| / 200) := by
  have heq := drawPreyRowTriangles_eq colors origins pc b hc row 0 0 (fun j hj => by omega)
  rw [heq]
  have hwidths : sumTriangleWidths (expectedRowFlowTriangles colors origins pc b row 0 0)
      = pc.width * rawSum row := expectedRowFlowTriangles_sumWidths colors origins pc b row 0 0
  refine ⟨rfl, expectedRowFlowTriangles_length colors origins pc b row 0 0, ?_, ?_, hwidths,
    fun h1 => by rw [hwidths, h1, mul_one], fun h1 => ?_⟩
  · intro j t ht
    have hj : j < row.length := by
      by_contra hj
      rw [List.get?_eq_none.2 (by rw [expectedRowFlowTriangles_length]; omega)] at ht
      exact Option.noConfusion ht
    rw [expectedRowFlowTriangles_get? colors origins pc b row 0 0 j hj] at ht
    obtain rfl := Option.some_injective _ ht.symm
    constructor
    · simp only []
      ring
    · simp only [triangleWidth]
      ring
  · intro j t t' ht ht'
    have hj1 : j + 1 < row.length := by
      by_contra hj
      rw [List.get?_eq_none.2 (by rw [expectedRowFlowTriangles_length]; omega)] at ht'
      exact Option.noConfusion ht'
    have hj : j < row.length := by omega
    rw [expectedRowFlowTriangles_get? colors origins pc b row 0 0 j hj] at ht
    rw [expectedRowFlowTriangles_get? colors origins pc b row 0 0 (j + 1) hj1] at ht'
    obtain rfl := Option.some_injective _ ht.symm
    obtain rfl := Option.some_injective _ ht'.symm
    simp only []
    rw [rawSum_take_succ row j hj, getD_eq_get row j hj]
    ring
  · have hs := close_of_arraySum_eq_one row h1
    rw [hwidths]
    calc |pc.width * rawSum row - pc.width| = |pc.width| * |rawSum row - 1| := by
          rw [← abs_mul]; ring_nf
      _ ≤ |pc.width| * (1 / 200) := by
          exact mul_le_mul_of_nonneg_left hs (abs_nonneg _)
      _ = |pc.width| / 200 := by ring

/-- Witness for C1 at a concrete input: a two-species occupation row
`[3/10, 7/10]` on a prey rectangle of width 100 yields flows whose widths
sum to the full 100. -/
theorem flow_row_tiles_prey_width_witness :
    sumTriangleWidths (drawPreyRowTriangles [("red", "black")] [(10, 0), (20, 0)]
      (some ⟨(0, 150), (0, 180), 100⟩) false [3/10, 7/10] 0 0).1 = 100 := by
  have h := flow_row_tiles_prey_width [("red", "black")] [(10, 0), (20, 0)]
    ⟨(0, 150), (0, 180), 100⟩ false [3/10, 7/10] (by simp) (by simp)
  have hsum : rawSum [3/10, 7/10] = 1 := by norm_num [rawSum]
  simpa using h.2.2.2.2.2.1 hsum

/-- C8 (amended): the flow computation emits exactly one flow polygon per
occupation-matrix cell — zero-occupation cells included, which yield
degenerate zero-width polygons — and the polygons are ordered by
(prey index, predator index): the result equals the row-major closed form
`expectedFlowTrianglesGo`, and its length is the total cell count. -/
theorem flow_emits_triangle_per_cell (matrix : List (List ℚ)) (origins : List (ℚ × ℚ))
    (colors : List (String × String)) (b : Bool) (preysCoords : List PreyCoords)
    (hc : colors ≠ [])
    (ho : ∀ row ∈ matrix, row.length ≤ origins.length)
    (hp : matrix.length ≤ preysCoords.length) :
    drawPredatorsToPreysTriangles matrix origins colors b preysCoords
      = (expectedFlowTrianglesGo colors origins preysCoords b matrix 0, some ()) ∧
    (drawPredatorsToPreysTriangles matrix origins colors b preysCoords).1.length
      = (matrix.map List.length).sum := by
  have ho' : ∀ i, i < matrix.length → (matrix.getD i []).length ≤ origins.length := by
    intro i hi
    refine ho _ ?_
    rw [List.getD_eq_getElem?_getD, List.getElem?_eq_getElem hi]
    exact List.getElem_mem hi
  have h := drawPredatorsToPreysTrianglesGo_eq colors origins preysCoords b hc matrix 0 ho'
    (by omega)
  unfold drawPredatorsToPreysTriangles
  rw [h]
  exact ⟨rfl, by rw [expectedFlowTrianglesGo_length]⟩

/-- Witness for C8 at a concrete input: a 2×2 matrix yields 4 polygons. -/
theorem flow_emits_triangle_per_cell_witness :
    (drawPredatorsToPreysTriangles [[1/2, 1/2], [1/4, 3/4]] [(10, 0), (20, 0)]
      [("red", "black")] false
      [⟨(0, 150), (0, 180), 100⟩, ⟨(200, 150), (200, 180), 50⟩]).1.length = 4 := by
  have h := flow_emits_triangle_per_cell [[1/2, 1/2], [1/4, 3/4]] [(10, 0), (20, 0)]
    [("red", "black")] false
    [⟨(0, 150), (0, 180), 100⟩, ⟨(200, 150), (200, 180), 50⟩]
    (by simp) (by intro row hr; fin_cases hr <;> simp) (by simp)
  simpa using h.2

/-- C8 counterexample: the matrix `[[0, 1]]` has one nonzero cell, yet the
flow computation emits 2 polygons — the zero-occupation cell also produces a
(zero-width, degenerate) polygon, so "one polygon per NONZERO cell, zero
cells produce no polygon" is false on the code. -/
theorem flow_emits_triangle_for_zero_cell :
    (drawPredatorsToPreysTriangles [[0, 1]] [(10, 0), (20, 0)] [("red", "black")] false
      [⟨(0, 150), (0, 180), 100⟩]).1.length = 2 ∧
    ((drawPredatorsToPreysTriangles [[0, 1]] [(10, 0), (20, 0)] [("red", "black")] false
      [⟨(0, 150), (0, 180), 100⟩]).1.map triangleWidth) = [0, 100] := by
  norm_num [drawPredatorsToPreysTriangles, drawPredatorsToPreysTrianglesGo,
    drawPreyRowTriangles, getColorFromArray, triangleWidth]

/-- Closed form of the rectangle-mode `drawSpecyRectangles` entry `i`. -/
theorem drawSpecyRectangles_rect_get? (opts : Options) (pops : List ℚ) (y : ℚ) (fb : Bool)
    (i : ℕ) (hi : i < pops.length) :
    (drawSpecyRectangles opts pops y false fb).get? i
      = some (SpecyCoord.rect
          ⟨(rawSum (pops.take i) * opts.canvasWidth + opts.separatorWidth, y),
           (rawSum (pops.take i) * opts.canvasWidth + opts.separatorWidth,
             y + opts.rectangleHeight),
           pops.getD i 0 * opts.canvasWidth - opts.separatorWidth⟩) := by
  rw [drawSpecyRectangles, drawSpecyRectanglesGo_get?]
  have hget : pops.get? i = some (pops.getD i 0) := by
    rw [List.get?_eq_get hi, getD_eq_get pops i hi]
  rw [hget]
  simp

/-- Same in `getD` form. -/
theorem drawSpecyRectangles_rect_getD (opts : Options) (pops : List ℚ) (y : ℚ) (fb : Bool)
    (i : ℕ) (hi : i < pops.length) :
    (drawSpecyRectangles opts pops y false fb).getD i (SpecyCoord.origin (0, 0))
      = SpecyCoord.rect
          ⟨(rawSum (pops.take i) * opts.canvasWidth + opts.separatorWidth, y),
           (rawSum (pops.take i) * opts.canvasWidth + opts.separatorWidth,
             y + opts.rectangleHeight),
           pops.getD i 0 * opts.canvasWidth - opts.separatorWidth⟩ := by
  have h := drawSpecyRectangles_rect_get? opts pops y fb i hi
  rw [List.getD_eq_getElem?_getD, ← List.get?_eq_getElem?, h]
  rfl

/-- C4 (amended): every rectangle of a level — the first included — has
`separatorWidth` added to its left position and subtracted from its width:
rectangle `i` starts at `(sum of populations before i) * canvasWidth +
separatorWidth` with width `population[i] * canvasWidth - separatorWidth`;
in particular a single-species level `[1.0]` yields one rectangle starting at
`x = separatorWidth` with width `canvasWidth - separatorWidth`, not a
flush-at-0 full-canvas rectangle. -/
theorem specy_rectangles_layout (opts : Options) (pops : List ℚ) (y : ℚ) (fb : Bool)
    (i : ℕ) (hi : i < pops.length) :
    (drawSpecyRectangles opts pops y false fb).get? i
      = some (SpecyCoord.rect
          ⟨(rawSum (pops.take i) * opts.canvasWidth + opts.separatorWidth, y),
           (rawSum (pops.take i) * opts.canvasWidth + opts.separatorWidth,
             y + opts.rectangleHeight),
           pops.getD i 0 * opts.canvasWidth - opts.separatorWidth⟩) ∧
    drawSpecyRectangles opts [1] y false fb
      = [SpecyCoord.rect ⟨(opts.separatorWidth, y),
          (opts.separatorWidth, y + opts.rectangleHeight),
          opts.canvasWidth - opts.separatorWidth⟩] := by
  refine ⟨drawSpecyRectangles_rect_get? opts pops y fb i hi, ?_⟩
  simp only [drawSpecyRectangles, drawSpecyRectanglesGo]
  norm_num

/-- Witness for C4 at a concrete input: with the default options (separator 5,
canvas 500) and populations `[2/5, 3/5]`, rectangle 1 starts at
`2/5 * 500 + 5 = 205` with width `3/5 * 500 - 5 = 295`. -/
theorem specy_rectangles_layout_witness :
    (drawSpecyRectangles defaultOptions [2/5, 3/5] 150 false false).get? 1
      = some (SpecyCoord.rect ⟨(205, 150), (205, 180), 295⟩) := by
  have h := (specy_rectangles_layout defaultOptions [2/5, 3/5] 150 false 1 (by simp)).1
  rw [h]
  norm_num [rawSum, defaultOptions]

/-- C4 counterexample: with the default options, a single-species level
`[1.0]` yields a rectangle starting at `x = 5 ≠ 0` with width
`495 ≠ 1 * 500` — the first rectangle is NOT flush at 0 with full width, the
separator is subtracted from it too. -/
theorem specy_rectangles_first_not_flush :
    drawSpecyRectangles defaultOptions [1] 150 false false
      = [SpecyCoord.rect ⟨(5, 150), (5, 180), 495⟩] ∧
    (5 : ℚ) ≠ 0 ∧ (495 : ℚ) ≠ 1 * 500 := by
  refine ⟨?_, by norm_num, by norm_num⟩
  simp only [drawSpecyRectangles, drawSpecyRectanglesGo, defaultOptions]
  norm_num

/-- C9: the right edge of rectangle `i` (left + width) equals the cumulative
population fraction through species `i` times `canvasWidth`; the gap between
rectangle `i`'s right edge and rectangle `i+1`'s left edge is exactly
`separatorWidth`; and for nonnegative populations (and nonnegative canvas
width and separator) no later rectangle starts left of rectangle `i`'s right
edge — the rectangles of a level do not overlap. -/
theorem partition_edges_and_no_overlap (opts : Options) (pops : List ℚ) (y : ℚ) (fb : Bool)
    (i : ℕ) (hi : i < pops.length) :
    coordRightX ((drawSpecyRectangles opts pops y false fb).getD i (SpecyCoord.origin (0, 0)))
      = rawSum (pops.take (i + 1)) * opts.canvasWidth ∧
    (i + 1 < pops.length →
      coordLeftX ((drawSpecyRectangles opts pops y false fb).getD (i + 1)
            (SpecyCoord.origin (0, 0)))
          - coordRightX ((drawSpecyRectangles opts pops y false fb).getD i
            (SpecyCoord.origin (0, 0)))
        = opts.separatorWidth) ∧
    (0 ≤ opts.separatorWidth → 0 ≤ opts.canvasWidth → (∀ p ∈ pops, 0 ≤ p) →
      ∀ j, i < j → j < pops.length →
        coordRightX ((drawSpecyRectangles opts pops y false fb).getD i
            (SpecyCoord.origin (0, 0)))
          ≤ coordLeftX ((drawSpecyRectangles opts pops y false fb).getD j
            (SpecyCoord.origin (0, 0)))) := by
  have hright : coordRightX ((drawSpecyRectangles opts pops y false fb).getD i
      (SpecyCoord.origin (0, 0))) = rawSum (pops.take (i + 1)) * opts.canvasWidth := by
    rw [drawSpecyRectangles_rect_getD opts pops y fb i hi]
    simp only [coordRightX]
    rw [rawSum_take_succ pops i hi, getD_eq_get pops i hi]
    ring
  refine ⟨hright, fun hi1 => ?_, fun hsep hW hpop j hij hj => ?_⟩
  · rw [drawSpecyRectangles_rect_getD opts pops y fb (i + 1) hi1, hright]
    simp only [coordLeftX]
    ring
  · rw [drawSpecyRectangles_rect_getD opts pops y fb j hj, hright]
    simp only [coordLeftX]
    have hmono : rawSum (pops.take (i + 1)) ≤ rawSum (pops.take j) :=
      rawSum_take_mono pops hpop (by omega)
    have := mul_le_mul_of_nonneg_right hmono hW
    linarith

/-- Witness for C9 at a concrete input: default options, populations
`[2/5, 3/5]`: rectangle 0's right edge is `2/5 * 500 = 200`, the gap to
rectangle 1 is the separator 5, and rectangle 1 starts at or after 200. -/
theorem partition_edges_and_no_overlap_witness :
    coordRightX ((drawSpecyRectangles defaultOptions [2/5, 3/5] 150 false false).getD 0
        (SpecyCoord.origin (0, 0))) = 200 ∧
    coordLeftX ((drawSpecyRectangles defaultOptions [2/5, 3/5] 150 false false).getD 1
          (SpecyCoord.origin (0, 0)))
        - coordRightX ((drawSpecyRectangles defaultOptions [2/5, 3/5] 150 false false).getD 0
          (SpecyCoord.origin (0, 0))) = 5 ∧
    coordRightX ((drawSpecyRectangles defaultOptions [2/5, 3/5] 150 false false).getD 0
        (SpecyCoord.origin (0, 0)))
      ≤ coordLeftX ((drawSpecyRectangles defaultOptions [2/5, 3/5] 150 false false).getD 1
        (SpecyCoord.origin (0, 0))) := by
  have h := partition_edges_and_no_overlap defaultOptions [2/5, 3/5] 150 false 0 (by simp)
  refine ⟨?_, ?_, ?_⟩
  · rw [h.1]; norm_num [rawSum, defaultOptions]
  · have := h.2.1 (by simp)
    simpa [defaultOptions] using this
  · exact h.2.2 (by norm_num [defaultOptions]) (by norm_num [defaultOptions])
      (by intro p hp; fin_cases hp <;> norm_num) 1 (by omega) (by simp)

/-- C5: an array passes the validator's sum check exactly when
`round(sum * 100) / 100` equals 1 (`jsRound` is JavaScript's `Math.round`);
every array whose raw sum is within 0.005 (= 1/200) of 1 passes; and whenever
the rounded sum differs from 1 the check fails and the corresponding defect
message is reported (shown here for the preys population array). -/
theorem arraySum_two_decimal_tolerance (a : List ℚ) :
    (arraySum a = 1 ↔ jsRound (rawSum a * 100) = 100) ∧
    (|rawSum a - 1| < 1 / 200 → arraySum a = 1) ∧
    (∀ (pp op : List ℚ) (opd ood : List (List ℚ)), arraySum a ≠ 1 →
      preysSumMsg ∈ (validateMandatoryValues pp a op opd ood).messages) := by
  refine ⟨arraySum_eq_one_iff a, arraySum_eq_one_of_close a, ?_⟩
  intro pp op opd ood h
  simp [validateMandatoryValues, validateBaseMsgs, h]

/-- Witness for C5: `[1/2, 1/2 + 1/250]` has raw sum `1.004`, within the
tolerance, and passes; `[1/2, 2/5]` has rounded sum `0.9 ≠ 1` and its defect
is reported. -/
theorem arraySum_two_decimal_tolerance_witness :
    arraySum [1/2, 1/2 + 1/250] = 1 ∧
    preysSumMsg ∈ (validateMandatoryValues [1] [1/2, 2/5] [] [[1]] [[0]]).messages := by
  constructor
  · refine (arraySum_two_decimal_tolerance [1/2, 1/2 + 1/250]).2.1 ?_
    norm_num [rawSum, abs_lt]
  · refine (arraySum_two_decimal_tolerance [1/2, 2/5]).2.2 [1] [] [[1]] [[0]] ?_
    norm_num [arraySum, rawSum, jsRound_eq_floor]

/-- C7 (amended): for a non-empty color list the resolver picks the pair at
`index mod length` — cyclic wraparound, always in bounds, selecting the fill
or the text component; there is no default-pair fallback in the source: on an
empty list the access throws instead (see the counterexample theorem). -/
theorem color_resolver_cyclic (colors : List (String × String)) (index : ℕ) (forText : Bool)
    (h : colors ≠ []) :
    index % colors.length < colors.length ∧
    getColorFromArray colors index forText = some (colorAt colors index forText) :=
  ⟨Nat.mod_lt _ (List.length_pos.2 h), getColorFromArray_eq colors index forText h⟩

/-- Witness for C7: a two-color list at index 5 wraps to position 1. -/
theorem color_resolver_cyclic_witness :
    getColorFromArray [("a", "b"), ("c", "d")] 5 false = some "c" := by
  have h := (color_resolver_cyclic [("a", "b"), ("c", "d")] 5 false (by simp)).2
  rw [h]
  norm_num [colorAt]

/-- C7 counterexample: on an empty (or absent) color list the resolver does
not return any default color pair — the JavaScript access
`colors[index % 0][i]` is `undefined[i]` and throws (`none`), for both the
fill and the text component. -/
theorem color_resolver_empty_throws :
    getColorFromArray [] 0 false = none ∧ getColorFromArray [] 0 true = none :=
  ⟨rfl, rfl⟩

theorem rowSumChecks_mem (ood : List (List ℚ)) :
    ∀ (rows : List (List ℚ)) (k : ℕ), k + rows.length ≤ ood.length →
    ∀ i (hi : i < rows.length),
      arraySum (rows.get ⟨i, hi⟩) + arraySum (ood.getD (k + i) []) ≠ 1 →
      occupationRowSumMsg (k + i + 1) ∈ (rowSumChecks ood rows k).1 := by
  intro rows
  induction rows with
  | nil => intro k _ i hi; simp at hi
  | cons r rest ih =>
    intro k hk i hi hbad
    have hklt : k < ood.length := by simp only [List.length_cons] at hk; omega
    have hq : ood.get? k = some (ood.getD k []) := by
      rw [List.get?_eq_get hklt]
      simp [List.getD_eq_getElem?_getD, List.getElem?_eq_getElem hklt]
    rw [rowSumChecks, hq]
    simp only [List.mem_append]
    cases i with
    | zero =>
      left
      have hbad0 : arraySum r + arraySum (ood.getD k []) ≠ 1 := hbad
      rw [if_neg hbad0]
      simp
    | succ j =>
      right
      have hj : j < rest.length := by simpa using hi
      have hbad2 : arraySum (rest.get ⟨j, hj⟩) + arraySum (ood.getD (k + 1 + j) []) ≠ 1 := by
        have hidx : k + 1 + j = k + (j + 1) := by omega
        rw [hidx]
        simpa [List.get_cons_succ] using hbad
      have := ih (k + 1) (by simp only [List.length_cons] at hk; omega) j hj hbad2
      have hidx2 : k + 1 + j + 1 = k + (j + 1) + 1 := by omega
      rwa [hidx2] at this

theorem validateTail_mem_of_mem_rowSumChecks (pp op : List ℚ) (opd ood : List (List ℚ))
    (hne : opd ≠ []) (hlen : opd.length ≤ ood.length) (x : String)
    (hx : x ∈ (rowSumChecks ood opd 0).1) : x ∈ (validateTail pp op opd ood).1 := by
  obtain ⟨r, rs, rfl⟩ := List.exists_cons_of_ne_nil hne
  have hood : ood ≠ [] := by
    intro hE
    subst hE
    simp at hlen
  obtain ⟨o, os, rfl⟩ := List.exists_cons_of_ne_nil hood
  unfold validateTail
  simp only [List.head?_cons]
  by_cases hop : 0 < op.length
  · rw [if_pos hop]
    simp only [List.head?_cons, List.mem_append]
    right; exact hx
  · rw [if_neg hop]
    simp only [List.mem_append]
    right; exact hx

/-- C2: the validator does not stop at the first defect: a failing
predator-sum check, a failing prey-sum check and a failing row-count check
each contribute their message no matter what the rest of the input looks
like; when the validator completes, every failing combined row-sum check
reports its row individually; and an input in which both population arrays
fail yields at least two reported messages in one pass. -/
theorem validator_accumulates_defects (pp yp op : List ℚ) (opd ood : List (List ℚ)) :
    (arraySum pp ≠ 1 →
      predatorsSumMsg ∈ (validateMandatoryValues pp yp op opd ood).messages) ∧
    (arraySum yp ≠ 1 →
      preysSumMsg ∈ (validateMandatoryValues pp yp op opd ood).messages) ∧
    (opd.length ≠ yp.length →
      occupationRowsMsg ∈ (validateMandatoryValues pp yp op opd ood).messages) ∧
    (opd ≠ [] → opd.length ≤ ood.length →
      ∀ i (hi : i < opd.length),
        arraySum (opd.get ⟨i, hi⟩) + arraySum (ood.getD i []) ≠ 1 →
        occupationRowSumMsg (i + 1) ∈ (validateMandatoryValues pp yp op opd ood).messages) ∧
    (arraySum pp ≠ 1 → arraySum yp ≠ 1 →
      2 ≤ (validateMandatoryValues pp yp op opd ood).messages.length) := by
  refine ⟨fun h1 => ?_, fun h2 => ?_, fun h4 => ?_, fun hne hlen i hi hbad => ?_,
    fun h1 h2 => ?_⟩
  · simp [validateMandatoryValues, validateBaseMsgs, h1]
  · simp [validateMandatoryValues, validateBaseMsgs, h2]
  · simp [validateMandatoryValues, validateBaseMsgs, h4]
  · have hrow := rowSumChecks_mem ood opd 0 (by omega) i hi (by simpa using hbad)
    have htail := validateTail_mem_of_mem_rowSumChecks pp op opd ood hne hlen _
      (by simpa using hrow)
    simp only [validateMandatoryValues, List.mem_append]
    right
    exact htail
  · simp only [validateMandatoryValues, validateBaseMsgs, h1, h2, if_false, if_neg,
      List.append_assoc, List.length_append]
    simp [h1, h2]
    omega

/-- Witness for C2: predators `[1/2]` and preys `[2/5]` both fail the sum
check, and at least two messages are reported. -/
theorem validator_accumulates_defects_witness :
    2 ≤ (validateMandatoryValues [1/2] [2/5] [] [[1]] [[0]]).messages.length := by
  refine (validator_accumulates_defects [1/2] [2/5] [] [[1]] [[0]]).2.2.2.2 ?_ ?_
  · norm_num [arraySum, rawSum, jsRound_eq_floor]
  · norm_num [arraySum, rawSum, jsRound_eq_floor]

theorem validate_result_true_messages_nil (pp yp op : List ℚ) (opd ood : List (List ℚ)) :
    (validateMandatoryValues pp yp op opd ood).result = some true →
    (validateMandatoryValues pp yp op opd ood).messages = [] := by
  unfold validateMandatoryValues
  cases h : (validateTail pp op opd ood).2 with
  | none => simp [h]
  | some u =>
    simp only [h, Option.map_some']
    intro hres
    have : (validateBaseMsgs pp yp op opd ood ++ (validateTail pp op opd ood).1).isEmpty
        = true := by
      simpa using hres
    simpa [List.isEmpty_iff] using this

/-- C3: whenever validation does not succeed (a defect was reported, or the
validator itself threw), `drawTrophicNetwork` returns before storing anything
or computing any geometry — the drawer state is returned unchanged and no
scene is produced; and a preys population array whose rounded sum differs
from 1 (such as `[0.5, 0.4]`, sum 0.9) is exactly such a case, with its
defect message reported. -/
theorem invalid_input_draws_nothing (s : DrawerState) (pp yp op : List ℚ)
    (opd ood : List (List ℚ)) (patch : OptionsPatch) :
    ((validateMandatoryValues pp yp op opd ood).result ≠ some true →
      drawTrophicNetwork s pp yp op opd ood patch = (s, none)) ∧
    (arraySum yp ≠ 1 →
      (validateMandatoryValues pp yp op opd ood).result ≠ some true ∧
      preysSumMsg ∈ (validateMandatoryValues pp yp op opd ood).messages) := by
  constructor
  · intro h
    unfold drawTrophicNetwork
    cases hres : (validateMandatoryValues pp yp op opd ood).result with
    | none => rfl
    | some b =>
      cases b with
      | true => exact absurd hres h
      | false => rfl
  · intro h2
    have hmem : preysSumMsg ∈ (validateMandatoryValues pp yp op opd ood).messages := by
      simp [validateMandatoryValues, validateBaseMsgs, h2]
    refine ⟨fun htrue => ?_, hmem⟩
    rw [validate_result_true_messages_nil pp yp op opd ood htrue] at hmem
    exact List.not_mem_nil _ hmem

/-- Witness for C3: preys `[1/2, 2/5]` (rounded sum 0.9) makes
`drawTrophicNetwork` return the initial state unchanged with no scene. -/
theorem invalid_input_draws_nothing_witness :
    drawTrophicNetwork initialDrawerState [1] [1/2, 2/5] [] [[1]] [[0]] {}
      = (initialDrawerState, none) := by
  have h := invalid_input_draws_nothing initialDrawerState [1] [1/2, 2/5] [] [[1]] [[0]] {}
  refine h.1 (h.2 ?_).1
  norm_num [arraySum, rawSum, jsRound_eq_floor]

theorem rowSumChecks_isSome (ood : List (List ℚ)) :
    ∀ (rows : List (List ℚ)) (k : ℕ),
    (rowSumChecks ood rows k).2.isSome = true ↔ (rows = [] ∨ k + rows.length ≤ ood.length) := by
  intro rows
  induction rows with
  | nil => intro k; simp [rowSumChecks]
  | cons r rest ih =>
    intro k
    rw [rowSumChecks]
    cases hq : ood.get? k with
    | none =>
      have hlen : ood.length ≤ k := List.get?_eq_none.1 hq
      simp only [Option.isSome_none, Bool.false_eq_true, false_iff]
      rintro (hcons | hle)
      · exact List.noConfusion hcons
      · simp only [List.length_cons] at hle; omega
    | some orow =>
      have hk : k < ood.length := by
        by_contra hk
        rw [List.get?_eq_none.2 (by omega)] at hq
        exact Option.noConfusion hq
      simp only []
      rw [ih (k + 1)]
      simp only [List.length_cons]
      constructor
      · rintro (hrest | hle)
        · subst hrest; right; simp; omega
        · right; omega
      · rintro (hcons | hle)
        · exact List.noConfusion hcons
        · right; omega

theorem validateTail_isSome (pp op : List ℚ) (opd ood : List (List ℚ)) :
    (validateTail pp op opd ood).2.isSome = true ↔ (opd ≠ [] ∧ opd.length ≤ ood.length) := by
  unfold validateTail
  cases opd with
  | nil => simp
  | cons r rs =>
    simp only [List.head?_cons]
    by_cases hop : 0 < op.length
    · rw [if_pos hop]
      cases hq : ood.head? with
      | none =>
        have hE : ood = [] := List.head?_eq_none_iff.1 hq
        subst hE
        simp only [Option.isSome_none, Bool.false_eq_true, false_iff]
        intro hcon
        simp at hcon
      | some o =>
        simp only []
        rw [rowSumChecks_isSome]
        simp only [List.length_cons]
        constructor
        · rintro (hcons | hle)
          · exact absurd hcons (List.cons_ne_nil r rs)
          · exact ⟨List.cons_ne_nil r rs, by simpa using hle⟩
        · rintro ⟨_, hle⟩
          right; simpa using hle
    · rw [if_neg hop]
      simp only []
      rw [rowSumChecks_isSome]
      simp only [List.length_cons]
      constructor
      · rintro (hcons | hle)
        · exact absurd hcons (List.cons_ne_nil r rs)
        · exact ⟨List.cons_ne_nil r rs, by simpa using hle⟩
      · rintro ⟨_, hle⟩
        right; simpa using hle

theorem validateMandatoryValues_isSome (pp yp op : List ℚ) (opd ood : List (List ℚ)) :
    (validateMandatoryValues pp yp op opd ood).result.isSome = true
      ↔ (opd ≠ [] ∧ opd.length ≤ ood.length) := by
  unfold validateMandatoryValues
  simp only [Option.isSome_map']
  exact validateTail_isSome pp op opd ood

/-- C10: `validateMandatoryValues` reads `occupationPreysPerPredators[0]`
unconditionally and, in the combined row-sum loop, reads
`occupationPreysPerOtherPredators[preyIndex]` for every prey row — also when
`otherPredatorsPop` is empty.  It completes without a `TypeError`
(`result.isSome`) precisely when `occupationPreysPerPredators` is non-empty
and `occupationPreysPerOtherPredators` has at least one row per row of
`occupationPreysPerPredators`; under exactly that precondition the
`undefined`-indexing branch is unreachable.  Note the right-hand side does
not mention `otherPredatorsPop`: the reads happen regardless of it. -/
theorem validator_totality_iff (pp yp op : List ℚ) (opd ood : List (List ℚ)) :
    (validateMandatoryValues pp yp op opd ood).result.isSome = true
      ↔ (opd ≠ [] ∧ opd.length ≤ ood.length) :=
  validateMandatoryValues_isSome pp yp op opd ood

/-- Witness for C10 at a concrete input satisfying the precondition: the
validator completes without throwing. -/
theorem validator_totality_iff_witness :
    (validateMandatoryValues [1] [1/2] [] [[1]] [[0], [0]]).result.isSome = true := by
  refine (validator_totality_iff [1] [1/2] [] [[1]] [[0], [0]]).2 ⟨?_, ?_⟩
  · simp
  · simp

theorem ite_nil_eq_nil {P : Prop} [Decidable P] (m : String) :
    ((if P then ([] : List String) else [m]) = []) ↔ P := by
  split_ifs with h <;> simp [h]

theorem ite_cons_eq_nil {P : Prop} [Decidable P] (m : String) :
    ((if P then [m] else ([] : List String)) = []) ↔ ¬P := by
  split_ifs with h <;> simp [h]

theorem validateBaseMsgs_nil_iff (pp yp op : List ℚ) (opd ood : List (List ℚ)) :
    validateBaseMsgs pp yp op opd ood = [] ↔
      (arraySum pp = 1 ∧ arraySum yp = 1 ∧ (0 < op.length → arraySum op = 1) ∧
       opd.length = yp.length ∧ (0 < op.length → ood.length = yp.length)) := by
  unfold validateBaseMsgs
  simp only [List.append_eq_nil, ite_nil_eq_nil, ite_cons_eq_nil, not_and, not_not,
    and_assoc]

theorem rowSumChecks_msgs_nil_iff (ood : List (List ℚ)) :
    ∀ (rows : List (List ℚ)) (k : ℕ), k + rows.length ≤ ood.length →
    ((rowSumChecks ood rows k).1 = [] ↔
      ∀ i (hi : i < rows.length),
        arraySum (rows.get ⟨i, hi⟩) + arraySum (ood.getD (k + i) []) = 1) := by
  intro rows
  induction rows with
  | nil => intro k _; simp [rowSumChecks]
  | cons r rest ih =>
    intro k hk
    have hklt : k < ood.length := by simp only [List.length_cons] at hk; omega
    have hq : ood.get? k = some (ood.getD k []) := by
      rw [List.get?_eq_get hklt]
      simp [List.getD_eq_getElem?_getD, List.getElem?_eq_getElem hklt]
    rw [rowSumChecks, hq]
    simp only [List.append_eq_nil, ite_nil_eq_nil]
    rw [ih (k + 1) (by simp only [List.length_cons] at hk; omega)]
    constructor
    · rintro ⟨h0, hrest⟩ i hi
      cases i with
      | zero => simpa using h0
      | succ j =>
        have hj : j < rest.length := by simpa using hi
        have h2 := hrest j hj
        have hidx : k + 1 + j = k + (j + 1) := by omega
        rw [hidx] at h2
        simpa [List.get_cons_succ] using h2
    · intro hall
      refine ⟨by simpa using hall 0 (by simp), fun j hj => ?_⟩
      have h2 := hall (j + 1) (by simpa using hj)
      have hidx : k + (j + 1) = k + 1 + j := by omega
      rw [hidx] at h2
      simpa [List.get_cons_succ] using h2

theorem validateTail_nil_iff (pp op : List ℚ) (opd ood : List (List ℚ))
    (hne : opd ≠ []) (hlen : opd.length ≤ ood.length) :
    ((validateTail pp op opd ood).1 = [] ↔
      ((opd.getD 0 []).length = pp.length ∧
       (0 < op.length → (ood.getD 0 []).length = op.length) ∧
       (∀ i (hi : i < opd.length),
         arraySum (opd.get ⟨i, hi⟩) + arraySum (ood.getD i []) = 1))) := by
  obtain ⟨r, rs, rfl⟩ := List.exists_cons_of_ne_nil hne
  have hood : ood ≠ [] := by
    intro hE
    subst hE
    simp at hlen
  obtain ⟨o, os, rfl⟩ := List.exists_cons_of_ne_nil hood
  have hrows := rowSumChecks_msgs_nil_iff (o :: os) (r :: rs) 0 (by simpa using hlen)
  unfold validateTail
  simp only [List.head?_cons, List.getD_cons_zero]
  by_cases hop : 0 < op.length
  · rw [if_pos hop]
    simp only [List.head?_cons, List.append_eq_nil, ite_nil_eq_nil]
    rw [hrows]
    simp only [Nat.zero_add]
    constructor
    · rintro ⟨⟨h6, h7⟩, hr⟩
      exact ⟨h6, fun _ => h7, hr⟩
    · rintro ⟨h6, h7, hr⟩
      exact ⟨⟨h6, h7 hop⟩, hr⟩
  · rw [if_neg hop]
    simp only [List.append_eq_nil, ite_nil_eq_nil]
    rw [hrows]
    simp only [Nat.zero_add]
    constructor
    · rintro ⟨h6, hr⟩
      exact ⟨h6, fun h => absurd h hop, hr⟩
    · rintro ⟨h6, _, hr⟩
      exact ⟨h6, hr⟩

theorem validate_result_true_iff (pp yp op : List ℚ) (opd ood : List (List ℚ)) :
    (validateMandatoryValues pp yp op opd ood).result = some true ↔
      ((validateTail pp op opd ood).2.isSome = true ∧
       validateBaseMsgs pp yp op opd ood = [] ∧ (validateTail pp op opd ood).1 = []) := by
  unfold validateMandatoryValues
  cases h : (validateTail pp op opd ood).2 with
  | none => simp [h]
  | some u => simp [h, List.isEmpty_iff, List.append_eq_nil]

/-- C6 (amended): the validator checks the column count of the occupation
matrices only on their FIRST row.  Validation succeeds exactly when: the
three population-sum checks pass, the two matrices have one row per prey
(the other-predator matrix only when other predators exist), the predator
matrix is non-empty with at least as many rows in the other-predator matrix,
the FIRST rows' column counts match the predator population counts, and each
combined row sum is 1 — no condition constrains the column count of any row
beyond the first, so a matrix whose first row is correct but whose later row
has a wrong column count is NOT rejected for it. -/
theorem validator_checks_only_first_row_columns (pp yp op : List ℚ)
    (opd ood : List (List ℚ)) :
    (validateMandatoryValues pp yp op opd ood).result = some true ↔
      (arraySum pp = 1 ∧ arraySum yp = 1 ∧ (0 < op.length → arraySum op = 1) ∧
       opd.length = yp.length ∧ (0 < op.length → ood.length = yp.length) ∧
       opd ≠ [] ∧ opd.length ≤ ood.length ∧
       (opd.getD 0 []).length = pp.length ∧
       (0 < op.length → (ood.getD 0 []).length = op.length) ∧
       (∀ i (hi : i < opd.length),
         arraySum (opd.get ⟨i, hi⟩) + arraySum (ood.getD i []) = 1)) := by
  rw [validate_result_true_iff, validateTail_isSome, validateBaseMsgs_nil_iff]
  constructor
  · rintro ⟨⟨hne, hlen⟩, ⟨c1, c2, c3, c4, c5⟩, htail⟩
    obtain ⟨c6, c7, crow⟩ := (validateTail_nil_iff pp op opd ood hne hlen).1 htail
    exact ⟨c1, c2, c3, c4, c5, hne, hlen, c6, c7, crow⟩
  · rintro ⟨c1, c2, c3, c4, c5, hne, hlen, c6, c7, crow⟩
    exact ⟨⟨hne, hlen⟩, ⟨c1, c2, c3, c4, c5⟩,
      (validateTail_nil_iff pp op opd ood hne hlen).2 ⟨c6, c7, crow⟩⟩

/-- Witness for C6 at a concrete valid input: all the characterizing
conditions hold for a 1-predator, 1-prey network, so validation succeeds. -/
theorem validator_checks_only_first_row_columns_witness :
    (validateMandatoryValues [1] [1] [] [[1]] [[0]]).result = some true := by
  refine (validator_checks_only_first_row_columns [1] [1] [] [[1]] [[0]]).2
    ⟨?_, ?_, ?_, ?_, ?_, ?_, ?_, ?_, ?_, ?_⟩
  · norm_num [arraySum, rawSum, jsRound_eq_floor]
  · norm_num [arraySum, rawSum, jsRound_eq_floor]
  · intro h; simp at h
  · simp
  · intro h; simp at h
  · simp
  · simp
  · simp
  · intro h; simp at h
  · intro i hi
    have h0 : i = 0 := by simp at hi; omega
    subst h0
    norm_num [arraySum, rawSum, jsRound_eq_floor]

/-- C6 counterexample: the matrix `[[1/2, 1/2], [1]]` has a correct first row
(2 columns for 2 predators) but a later row with only 1 column; the validator
nevertheless reports no defect and accepts the input (`some true`) — the
claim "each row's column count is checked individually and such a matrix is
rejected" is false on the code. -/
theorem validator_accepts_bad_later_row :
    (validateMandatoryValues [1/2, 1/2] [1/2, 1/2] [] [[1/2, 1/2], [1]]
        [[0], [0]]).result = some true ∧
    (validateMandatoryValues [1/2, 1/2] [1/2, 1/2] [] [[1/2, 1/2], [1]]
        [[0], [0]]).messages = [] ∧
    (([[1/2, 1/2], [1]] : List (List ℚ)).getD 1 []).length
      ≠ ([1/2, 1/2] : List ℚ).length := by
  refine ⟨?_, ?_, by simp⟩ <;>
    norm_num [validateMandatoryValues, validateBaseMsgs, validateTail, rowSumChecks,
      arraySum, rawSum, jsRound_eq_floor]

end TrophicNetwork
